import Mathlib

/-!
Shallow embedding of the outbound message queue, rate limiter and status
animator of the VTAuder application (`main.py`, with the OSC client in
`src/integrations/vrchat.py`).  Python strings are modelled as `List Char`
(with `String` wrappers at the API boundary), `time.time()` timestamps and
durations as `ℤ` counts of milliseconds (every time constant in the source —
`_min_interval = 1.5` s, the 30 s penalty, the `root.after` delays — is an
exact number of milliseconds, so second-valued float arithmetic at millisecond
granularity is represented exactly, and Python's `int(x * 1000)` conversion of
a nonnegative wait to `root.after` milliseconds is the identity), and tkinter's
`root.after` timer callbacks as an explicit list of pending fire times carried
in the state.  The external OSC send is a parameter of type
`Except String Unit`: `.ok ()` for a call that returns normally and
`.error e` for one that raises an exception whose `str(e)` is `e`.
-/

namespace VTAuder

/-- ASCII whitespace as recognised by Python's `str.split()` / `str.strip()`
(space, tab, newline, carriage return, vertical tab, form feed).  The embedding
restricts Python's whitespace set to its ASCII part; none of the claims involve
non-ASCII whitespace.  Note `'\x00'` is not whitespace. -/
def isPySpace (c : Char) : Bool :=
  c = ' ' || c = '\t' || c = '\n' || c = '\r' || c = '\x0b' || c = '\x0c'

/-- Python `text.strip()`: drop whitespace from both ends. -/
def pyStrip (l : List Char) : List Char :=
  ((l.dropWhile isPySpace).reverse.dropWhile isPySpace).reverse

/-- Worker for `pyWords`: `acc` is the current word, reversed. -/
def pyWordsAux : List Char → List Char → List (List Char)
  | [], acc => if acc = [] then [] else [acc.reverse]
  | c :: rest, acc =>
    if isPySpace c then
      if acc = [] then pyWordsAux rest []
      else acc.reverse :: pyWordsAux rest []
    else pyWordsAux rest (c :: acc)

/-- Python `text.split()` (no argument): split on runs of whitespace,
discarding empty pieces. -/
def pyWords (l : List Char) : List (List Char) := pyWordsAux l []

/-- Python `' '.join(ws)`: concatenate the pieces with single spaces
between them. -/
def joinSp : List (List Char) → List Char
  | [] => []
  | w :: ws => w ++ (if ws.isEmpty then [] else ' ' :: joinSp ws)

/-- Python `' '.join(text.split())` (main.py line 115): collapse whitespace
runs to single spaces and trim both ends. -/
def collapseWs (l : List Char) : List Char := joinSp (pyWords l)

/-- `_max_message_length = 144` (main.py line 106). -/
def maxMessageLength : Nat := 144

/-- The length check of `validate_message` (main.py lines 118-119):
`text[:141] + "..."` when the collapsed text exceeds 144 characters. -/
def truncate144 (t : List Char) : List Char :=
  if maxMessageLength < t.length
  then t.take (maxMessageLength - 3) ++ ['.', '.', '.']
  else t

/-- The character stripping of `validate_message` (main.py lines 122-123):
`text.replace('\x00', '').replace('\r', '')`. -/
def stripBad (t : List Char) : List Char :=
  (t.filter (fun c => c ≠ '\x00')).filter (fun c => c ≠ '\r')

/-- `validate_message` (main.py lines 109-125) on `List Char`:
reject empty / all-whitespace input, collapse whitespace, truncate to 144
characters reserving 3 for `"..."`, then strip `'\x00'` and `'\r'`. -/
def validateCore (l : List Char) : Bool × List Char :=
  if l.isEmpty || (pyStrip l).isEmpty then
    (false, "Empty message".toList)
  else
    (true, stripBad (truncate144 (collapseWs l)))

/-- `validate_message` at the `String` boundary. -/
def validateMessage (s : String) : Bool × String :=
  let (ok, t) := validateCore s.toList
  (ok, String.mk t)

/-- Python's substring test `needle in hay` on strings. -/
def listContainsSub (needle : List Char) : List Char → Bool
  | [] => needle.isEmpty
  | c :: rest => needle.isPrefixOf (c :: rest) || listContainsSub needle rest

/-- Python `s.lower()` (ASCII case folding). -/
def pyLower (s : String) : String := String.mk (s.toList.map Char.toLower)

/-- The spam-timeout heuristic of `_send_message_direct` (main.py line 200):
`"Timed out for spam" in str(e) or "spam" in str(e).lower()`. -/
def spamDetect (e : String) : Bool :=
  listContainsSub "Timed out for spam".toList e.toList ||
  listContainsSub "spam".toList (pyLower e).toList

/-- Python `str.title()` restricted to ASCII letters: uppercase a letter that
follows a non-letter, lowercase one that follows a letter (used in the chat-log
line `f"{message_data['type'].title()}: ..."`, main.py line 182). -/
def pyTitleAux : Bool → List Char → List Char
  | _, [] => []
  | prevAlpha, c :: rest =>
    if c.isAlpha then
      (if prevAlpha then c.toLower else c.toUpper) :: pyTitleAux true rest
    else c :: pyTitleAux false rest

def pyTitle (s : String) : String := String.mk (pyTitleAux false s.toList)

/-- An entry of `_message_queue` (main.py lines 142-146): the dict
`{'text': sanitized_text, 'type': message_type, 'timestamp': time.time()}`. -/
structure Msg where
  text : String
  type : String
  timestamp : ℤ
  deriving DecidableEq, Repr

/-- `_min_interval = 1.5` seconds = 1500 ms (main.py line 105). -/
def minInterval : ℤ := 1500

/-- `_max_queue_size = 10` (main.py line 104). -/
def maxQueueSize : Nat := 10

/-- The queue / rate-limiter state of the application (class fields of
main.py lines 98-107), together with the pending `root.after` timers for
`_process_message_queue` (`timers` holds their fire times) and two
observation logs: `chatLog` records `append_chat_log` lines, and `sent`
records each successful OSC send as `(time, text)`. -/
structure QState where
  queue : List Msg
  lastSent : ℤ          -- `_last_chatbox_sent`
  timeout : Bool        -- `_chatbox_timeout`
  timeoutUntil : ℤ      -- `_chatbox_timeout_until`
  processing : Bool     -- `_queue_processing`
  timers : List ℤ
  chatLog : List String
  sent : List (ℤ × String)
  deriving DecidableEq, Repr

/-- The class-attribute initial values (main.py lines 98-107). -/
def initState : QState :=
  { queue := [], lastSent := 0, timeout := false, timeoutUntil := 0,
    processing := false, timers := [], chatLog := [], sent := [] }

/-- `VRChatOSCClient.send_chat_message` (vrchat.py lines 161-167): the body is
a `try`/`except Exception` whose handler only prints, so whatever the
underlying `client.send_message` call does (`clientResult`), the method
returns normally. -/
def sendChatMessage (clientResult : Except String Unit) : Except String Unit :=
  match clientResult with
  | .ok _ => .ok ()        -- send succeeded, success line printed
  | .error _ => .ok ()     -- exception caught, error line printed

/-- The outcome, as seen by `_send_message_direct`, of
`self.vrchat_integration.osc_client.send_chat_message(text)`: the attribute
lookup may raise (`lookup = .error e`); if it succeeds, the result is that of
`send_chat_message`. -/
def oscSendOutcome (lookup clientResult : Except String Unit) :
    Except String Unit :=
  match lookup with
  | .error e => .error e
  | .ok _ => sendChatMessage clientResult

/-- `_send_message_direct` (main.py lines 189-205).  `oc` is the outcome of the
attribute lookup plus OSC call; on success `_last_chatbox_sent := now` and the
send is recorded; on an exception whose text matches the spam heuristic the
timeout state is set to `now + 30` seconds (30000 ms).  Returns the boolean
result and the new state. -/
def sendMessageDirect (oc : Except String Unit) (now : ℤ) (text : String)
    (st : QState) : Bool × QState :=
  match oc with
  | .ok _ => (true, { st with lastSent := now, sent := st.sent ++ [(now, text)] })
  | .error e =>
    if spamDetect e then
      (false, { st with timeout := true, timeoutUntil := now + 30000 })
    else
      (false, st)

/-- Which branch a `_process_message_queue` invocation took: the entry-guard
early return, the wait/reschedule branch, the pop-and-send branch, or the
final `else` that clears `_queue_processing` (main.py lines 186-187). -/
inductive DrainResult
  | noop
  | waited
  | popped (ok : Bool)
  | clearedFlag
  deriving DecidableEq, Repr

/-- `_process_message_queue` (main.py lines 155-187) at time `now`, with `oc`
the outcome the OSC layer would give for a send attempted now.
`root.after(int(d * 1000), ...)` for a delay of `d` seconds is modelled by
appending the fire time `now + d` (in ms) to `timers`. -/
def processMessageQueue (oc : Except String Unit) (now : ℤ) (st : QState) :
    QState × DrainResult :=
  if st.processing = true ∨ st.queue = [] then
    (st, .noop)
  else
    -- `self._queue_processing = True` runs right after the guard; it does not
    -- affect the fields the checks below read, and the net flag value of each
    -- branch is carried in that branch's state update.
    if (st.timeout = true ∧ now < st.timeoutUntil) ∨
        now - st.lastSent < minInterval then
      let wait := max (if st.timeout = true then st.timeoutUntil - now else 0)
                      (minInterval - (now - st.lastSent))
      ({ st with timers := st.timers ++ [now + wait],
                 processing := false }, .waited)
    else
      match st.queue with
      | m :: rest =>
        let res := sendMessageDirect oc now m.text { st with processing := true, queue := rest }
        let st3 := if res.1 = true then
            { res.2 with chatLog := res.2.chatLog ++ [pyTitle m.type ++ ": " ++ m.text] }
          else res.2
        ({ st3 with timers := st3.timers ++ [now + minInterval] },
         .popped res.1)
      | [] => ({ st with processing := false }, .clearedFlag)

/-- The queue update of `add_message_to_queue` (main.py lines 134-147):
`pop(0)` when `len(queue) >= _max_queue_size`, then append the new entry. -/
def enqueuedState (now : ℤ) (s ty : String) (st : QState) : QState :=
  { st with queue :=
      (if maxQueueSize ≤ st.queue.length then st.queue.tail else st.queue)
        ++ [⟨s, ty, now⟩] }

/-- `add_message_to_queue` (main.py lines 127-153): validate, evict the oldest
entry when the queue is full, append, and start a drain when none is marked as
running. -/
def addMessageToQueue (oc : Except String Unit) (now : ℤ) (text ty : String)
    (st : QState) : Bool × QState :=
  match validateMessage text with
  | (false, _) => (false, st)
  | (true, s) =>
    if (enqueuedState now s ty st).processing = false then
      (true, (processMessageQueue oc now (enqueuedState now s ty st)).1)
    else
      (true, enqueuedState now s ty st)

/-- `get_queue_status` (main.py lines 1093-1097). -/
def getQueueStatus (st : QState) : String :=
  let queueSize := st.queue.length
  let timeoutStatus := if st.timeout = true then "TIMEOUT" else "READY"
  "Queue: " ++ toString queueSize ++ "/" ++ toString maxQueueSize ++
    " | Status: " ++ timeoutStatus

/-- An externally observable event hitting the queue subsystem: an `enqueue`
call (any producer calling `add_message_to_queue`) or a pending
`root.after(..., _process_message_queue)` timer firing.  Each event carries the
wall-clock time at which it runs and the outcome the OSC layer would give a
send attempted at that moment. -/
inductive Event
  | enq (text ty : String) (oc : Except String Unit) (t : ℤ)
  | fire (oc : Except String Unit) (t : ℤ)
  deriving Repr

/-- One event executed on the single UI thread.  A firing timer is removed
from the pending set and runs `_process_message_queue`. -/
def step (st : QState) (e : Event) : QState :=
  match e with
  | .enq text ty oc t => (addMessageToQueue oc t text ty st).2
  | .fire oc t => (processMessageQueue oc t { st with timers := st.timers.erase t }).1

/-- A whole trace of events, oldest first. -/
def run (st : QState) (es : List Event) : QState := es.foldl step st

/-! ### Helper lemmas about the sanitizer -/

lemma length_stripBad_le (t : List Char) : (stripBad t).length ≤ t.length :=
  le_trans (List.length_filter_le _ _) (List.length_filter_le _ _)

lemma length_truncate144_le (t : List Char) :
    (truncate144 t).length ≤ maxMessageLength := by
  unfold truncate144
  split
  · simp only [List.length_append, List.length_take, List.length_cons,
      List.length_nil, maxMessageLength] at *
    omega
  · simp only [maxMessageLength] at *
    omega

lemma stripBad_append (a b : List Char) :
    stripBad (a ++ b) = stripBad a ++ stripBad b := by
  simp [stripBad, List.filter_append]

lemma mem_of_mem_stripBad {c : Char} {t : List Char} (h : c ∈ stripBad t) :
    c ∈ t :=
  List.mem_of_mem_filter (List.mem_of_mem_filter h)

lemma stripBad_chars {c : Char} {t : List Char} (h : c ∈ stripBad t) :
    c ≠ '\x00' ∧ c ≠ '\r' := by
  unfold stripBad at h
  have h1 := List.of_mem_filter h
  have h2 := List.of_mem_filter (List.mem_of_mem_filter h)
  exact ⟨by simpa using h2, by simpa using h1⟩

lemma pyWordsAux_chars :
    ∀ (l acc : List Char), (∀ c ∈ acc, isPySpace c = false) →
      ∀ w ∈ pyWordsAux l acc, ∀ c ∈ w, isPySpace c = false := by
  intro l
  induction l with
  | nil =>
    intro acc hacc w hw c hc
    unfold pyWordsAux at hw
    split at hw
    · simp at hw
    · simp only [List.mem_singleton] at hw
      subst hw
      exact hacc c (by simpa using hc)
  | cons d rest ih =>
    intro acc hacc w hw c hc
    unfold pyWordsAux at hw
    by_cases hd : isPySpace d = true
    · rw [if_pos hd] at hw
      by_cases ha : acc = []
      · rw [if_pos ha] at hw
        exact ih [] (by simp) w hw c hc
      · rw [if_neg ha] at hw
        rcases List.mem_cons.mp hw with hw | hw
        · subst hw
          exact hacc c (by simpa using hc)
        · exact ih [] (by simp) w hw c hc
    · rw [if_neg hd] at hw
      refine ih (d :: acc) ?_ w hw c hc
      intro c' hc'
      rcases List.mem_cons.mp hc' with h | h
      · subst h
        exact Bool.eq_false_iff.mpr hd
      · exact hacc c' h

lemma mem_joinSp :
    ∀ (ws : List (List Char)) (c : Char), c ∈ joinSp ws →
      (∃ w ∈ ws, c ∈ w) ∨ c = ' ' := by
  intro ws
  induction ws with
  | nil => intro c hc; simp [joinSp] at hc
  | cons w ws ih =>
    intro c hc
    rw [joinSp] at hc
    rcases List.mem_append.mp hc with h | h
    · exact Or.inl ⟨w, by simp, h⟩
    · by_cases he : ws.isEmpty = true
      · rw [if_pos he] at h
        simp at h
      · rw [if_neg he] at h
        rcases List.mem_cons.mp h with h | h
        · exact Or.inr h
        · rcases ih c h with ⟨u, hu, hcu⟩ | h
          · exact Or.inl ⟨u, List.mem_cons_of_mem _ hu, hcu⟩
          · exact Or.inr h

lemma collapseWs_chars {l : List Char} {c : Char} (hc : c ∈ collapseWs l) :
    isPySpace c = false ∨ c = ' ' := by
  rcases mem_joinSp _ c hc with ⟨w, hw, hcw⟩ | h
  · exact Or.inl (pyWordsAux_chars l [] (by simp) w hw c hcw)
  · exact Or.inr h

lemma mem_truncate144 {c : Char} {t : List Char} (h : c ∈ truncate144 t) :
    c ∈ t ∨ c = '.' := by
  unfold truncate144 at h
  split at h
  · rcases List.mem_append.mp h with h | h
    · exact Or.inl (List.mem_of_mem_take h)
    · right; simpa using h
  · exact Or.inl h

lemma truncation_suffix (t : List Char) (h : maxMessageLength < t.length) :
    "...".toList <:+ stripBad (truncate144 t) := by
  unfold truncate144
  rw [if_pos h, stripBad_append]
  exact ⟨stripBad (t.take (maxMessageLength - 3)), rfl⟩

/-! ### Claims about `validate_message` -/

/-- C5: `validate_message` is pure, fails exactly when the input is empty or
all-whitespace after trimming, never returns sanitized text longer than 144
characters, ends truncated text with the 3-character ellipsis marker, strips
null and carriage-return characters (the only whitespace character left after
collapsing runs is the single space), and maps `" a   b  \n\x00c\r "` to
`(true, "a b c")`. -/
theorem validate_message_spec :
    (∀ l : List Char,
      ((validateCore l).1 = false ↔ (l = [] ∨ pyStrip l = []))
      ∧ (validateCore l).2.length ≤ maxMessageLength
      ∧ ((validateCore l).1 = true → maxMessageLength < (collapseWs l).length →
          "...".toList <:+ (validateCore l).2)
      ∧ (∀ c ∈ (validateCore l).2, (validateCore l).1 = true →
          c ≠ '\x00' ∧ c ≠ '\r' ∧ (isPySpace c = true → c = ' ')))
    ∧ validateMessage " a   b  \n\x00c\r " = (true, "a b c") := by
  constructor
  · intro l
    by_cases h : (l.isEmpty || (pyStrip l).isEmpty) = true
    · refine ⟨?_, ?_, ?_, ?_⟩
      · simp only [validateCore, h, if_true]
        simpa [List.isEmpty_iff] using h
      · simp only [validateCore, h, if_true]
        decide
      · simp only [validateCore, h, if_true]
        intro hok
        cases hok
      · simp only [validateCore, h, if_true]
        intro c _ hok
        cases hok
    · refine ⟨?_, ?_, ?_, ?_⟩
      · simp only [validateCore, h, if_false, if_neg]
        constructor
        · intro hfalse; cases hfalse
        · intro habs
          exact absurd (by simpa [List.isEmpty_iff] using habs) h
      · simp only [validateCore, h, if_neg]
        exact le_trans (length_stripBad_le _) (length_truncate144_le _)
      · intro _ htr
        simp only [validateCore, h, if_neg]
        exact truncation_suffix _ htr
      · intro c hc _
        simp only [validateCore, h, if_neg] at hc
        refine ⟨(stripBad_chars hc).1, (stripBad_chars hc).2, ?_⟩
        intro hsp
        rcases mem_truncate144 (mem_of_mem_stripBad hc) with h2 | h2
        · rcases collapseWs_chars h2 with hf | hsp'
          · rw [hf] at hsp; cases hsp
          · exact hsp'
        · subst h2; cases hsp
  · decide

set_option maxRecDepth 10000 in
/-- Witness for `validate_message_spec`: a 150-`'a'` input passes validation,
exceeds 144 collapsed characters, and the sanitized result ends in `"..."`;
its character `'a'` is neither null nor a carriage return. -/
theorem validate_message_spec_witness :
    (((validateCore (List.replicate 150 'a')).1 = true
        ∧ maxMessageLength < (collapseWs (List.replicate 150 'a')).length)
      ∧ "...".toList <:+ (validateCore (List.replicate 150 'a')).2)
    ∧ ('a' ≠ '\x00' ∧ 'a' ≠ '\r' ∧ (isPySpace 'a' = true → 'a' = ' ')) :=
  ⟨⟨⟨by decide, by decide⟩,
    (validate_message_spec.1 (List.replicate 150 'a')).2.2.1 (by decide) (by decide)⟩,
   (validate_message_spec.1 (List.replicate 150 'a')).2.2.2 'a' (by decide) (by decide)⟩

/-! ### Helper lemmas about the drain loop -/

lemma sendMessageDirect_processing (oc : Except String Unit) (now : ℤ)
    (text : String) (st : QState) :
    ((sendMessageDirect oc now text st).2).processing = st.processing := by
  cases oc with
  | ok u => rfl
  | error e =>
    by_cases hs : spamDetect e = true <;> simp [sendMessageDirect, hs]

lemma sendMessageDirect_queue (oc : Except String Unit) (now : ℤ)
    (text : String) (st : QState) :
    ((sendMessageDirect oc now text st).2).queue = st.queue := by
  cases oc with
  | ok u => rfl
  | error e =>
    by_cases hs : spamDetect e = true <;> simp [sendMessageDirect, hs]

lemma sendMessageDirect_timeout_mono (oc : Except String Unit) (now : ℤ)
    (text : String) (st : QState) (h : st.timeout = true) :
    ((sendMessageDirect oc now text st).2).timeout = true := by
  cases oc with
  | ok u => exact h
  | error e =>
    by_cases hs : spamDetect e = true <;> simp [sendMessageDirect, hs, h]

lemma pmq_popped_facts (oc : Except String Unit) (now : ℤ) (st : QState)
    (h1 : ¬(st.processing = true ∨ st.queue = []))
    (h2 : ¬((st.timeout = true ∧ now < st.timeoutUntil) ∨
        now - st.lastSent < minInterval))
    (m : Msg) (rest : List Msg) (hq : st.queue = m :: rest) :
    (processMessageQueue oc now st).1.queue = rest
    ∧ (processMessageQueue oc now st).1.processing = true
    ∧ (processMessageQueue oc now st).2 =
        DrainResult.popped ((sendMessageDirect oc now m.text
          { st with processing := true, queue := rest }).1) := by
  unfold processMessageQueue
  rw [if_neg h1, if_neg h2, hq]
  have hp := sendMessageDirect_processing oc now m.text
    { st with processing := true, queue := rest }
  have hqr := sendMessageDirect_queue oc now m.text
    { st with processing := true, queue := rest }
  cases hres : (sendMessageDirect oc now m.text
      { st with processing := true, queue := rest }).1 <;>
    simp [hres, hp, hqr]

lemma pmq_popped_classify (oc : Except String Unit) (now : ℤ) (st : QState)
    (b : Bool) (hb : (processMessageQueue oc now st).2 = DrainResult.popped b) :
    ¬(st.processing = true ∨ st.queue = [])
    ∧ ¬((st.timeout = true ∧ now < st.timeoutUntil) ∨
        now - st.lastSent < minInterval) := by
  by_cases h1 : st.processing = true ∨ st.queue = []
  · exfalso
    unfold processMessageQueue at hb
    rw [if_pos h1] at hb
    simp at hb
  · by_cases h2 : (st.timeout = true ∧ now < st.timeoutUntil) ∨
        now - st.lastSent < minInterval
    · exfalso
      unfold processMessageQueue at hb
      rw [if_neg h1, if_pos h2] at hb
      simp at hb
    · exact ⟨h1, h2⟩

lemma queue_cons_of_guard (st : QState)
    (h1 : ¬(st.processing = true ∨ st.queue = [])) :
    ∃ m rest, st.queue = m :: rest := by
  cases hqe : st.queue with
  | nil => exact absurd (Or.inr hqe) h1
  | cons m rest => exact ⟨m, rest, rfl⟩

/-! ### Claims about `_process_message_queue` -/

/-- C8: in `_process_message_queue` the final else-branch (main.py lines
186-187), the one that clears `_queue_processing`, is unreachable — the entry
guard already returned when the queue was empty and nothing between the guard
and the pop removes elements — and consequently, once a message has been
popped and a send attempted, the processing flag is left `true`. -/
theorem drain_clear_branch_unreachable (oc : Except String Unit) (now : ℤ)
    (st : QState) :
    (processMessageQueue oc now st).2 ≠ DrainResult.clearedFlag
    ∧ ∀ b, (processMessageQueue oc now st).2 = DrainResult.popped b →
        (processMessageQueue oc now st).1.processing = true := by
  constructor
  · unfold processMessageQueue
    split
    · simp
    · rename_i hguard
      split
      · simp
      · split
        · rename_i m rest heq
          cases hres : (sendMessageDirect oc now m.text
              { st with processing := true, queue := rest }).1 <;>
            simp [hres]
        · rename_i heq
          push_neg at hguard
          exact absurd (by simpa using heq) hguard.2
  · intro b hb
    obtain ⟨h1, h2⟩ := pmq_popped_classify oc now st b hb
    obtain ⟨m, rest, hq⟩ := queue_cons_of_guard st h1
    exact (pmq_popped_facts oc now st h1 h2 m rest hq).2.1

/-- Witness for `drain_clear_branch_unreachable`: a singleton queue at
t = 100 s is popped (`popped true`) and the flag stays `true`. -/
theorem drain_clear_branch_unreachable_witness :
    (processMessageQueue (Except.ok ()) 100000
      { initState with queue := [⟨"hi", "general", 0⟩] }).1.processing = true :=
  (drain_clear_branch_unreachable (Except.ok ()) 100000
    { initState with queue := [⟨"hi", "general", 0⟩] }).2 true (by decide)

/-- C3: a send failure whose diagnostic contains "spam" (case-insensitively)
returns failure and sets the timeout state to end exactly 30 seconds after the
failure's timestamp; a drain that pops a message leaves the rest of the queue
(the popped message is never requeued, also on failure); and while
`now < timeout_until` with the timeout flag set, a drain pops nothing and
attempts no send. -/
theorem spam_timeout_spec :
    (∀ (e : String) (now : ℤ) (text : String) (st : QState),
      listContainsSub "spam".toList (pyLower e).toList = true →
      sendMessageDirect (Except.error e) now text st =
        (false, { st with timeout := true, timeoutUntil := now + 30000 }))
    ∧ (∀ (oc : Except String Unit) (now : ℤ) (st : QState) (b : Bool),
        (processMessageQueue oc now st).2 = DrainResult.popped b →
        (processMessageQueue oc now st).1.queue = st.queue.tail)
    ∧ (∀ (oc : Except String Unit) (now : ℤ) (st : QState),
        st.timeout = true → now < st.timeoutUntil →
        ∀ b, (processMessageQueue oc now st).2 ≠ DrainResult.popped b) := by
  refine ⟨?_, ?_, ?_⟩
  · intro e now text st hsub
    have hdet : spamDetect e = true := by
      unfold spamDetect
      rw [hsub, Bool.or_true]
    simp [sendMessageDirect, hdet]
  · intro oc now st b hb
    obtain ⟨h1, h2⟩ := pmq_popped_classify oc now st b hb
    obtain ⟨m, rest, hq⟩ := queue_cons_of_guard st h1
    rw [(pmq_popped_facts oc now st h1 h2 m rest hq).1, hq]
    rfl
  · intro oc now st ht hlt b
    unfold processMessageQueue
    split
    · simp
    · split
      · simp
      · rename_i hguard hcond
        exact absurd (Or.inl ⟨ht, hlt⟩) hcond

/-- Witness for `spam_timeout_spec`: the concrete diagnostic
`"Timed out for spam, try again later"` at t = 100 s sets the penalty window
to end at 130 s without requeueing, and a drain at t = 105 s during the window
pops nothing. -/
theorem spam_timeout_spec_witness :
    (sendMessageDirect (Except.error "Timed out for spam, try again later")
        100000 "x" initState =
      (false, { initState with timeout := true, timeoutUntil := 130000 }))
    ∧ ((processMessageQueue (Except.ok ()) 100000
          { initState with queue := [⟨"a", "general", 0⟩, ⟨"b", "general", 0⟩] }).1.queue
        = [⟨"b", "general", 0⟩])
    ∧ (∀ b, (processMessageQueue (Except.ok ()) 105000
          { initState with queue := [⟨"a", "general", 0⟩],
                           timeout := true, timeoutUntil := 130000 }).2
        ≠ DrainResult.popped b) := by
  refine ⟨?_, ?_, ?_⟩
  · have h := spam_timeout_spec.1 "Timed out for spam, try again later" 100000 "x"
      initState (by decide)
    rw [h]
    norm_num
  · have h := spam_timeout_spec.2.1 (Except.ok ()) 100000
      { initState with queue := [⟨"a", "general", 0⟩, ⟨"b", "general", 0⟩] }
      true (by decide)
    rw [h]
    rfl
  · exact spam_timeout_spec.2.2 (Except.ok ()) 105000
      { initState with queue := [⟨"a", "general", 0⟩],
                       timeout := true, timeoutUntil := 130000 }
      (by decide) (by norm_num)

/-- The trace of the spec's FIFO scenario: enqueue "Hello" then immediately
"World" at t = 100 s with a sender that always succeeds, then let the drain
timer scheduled for t = 101.5 s fire. -/
def helloWorldTrace : List Event :=
  [Event.enq "Hello" "manual" (Except.ok ()) 100000,
   Event.enq "World" "manual" (Except.ok ()) 100000,
   Event.fire (Except.ok ()) 101500]

/-- C1 (code evaluated at the failing input): after enqueueing "Hello" and
then "World" at t = 100 s, "Hello" is sent immediately, but the drain
rescheduled for t = 101.5 s no-ops because `_queue_processing` was left
`true` by the send branch, so "World" stays queued, no further timer is
pending, and the queue never drains again — "World" is never sent at
t ≈ 101.5 s as the claim requires. -/
theorem fifo_progress_bug :
    (run initState helloWorldTrace).sent = [(100000, "Hello")]
    ∧ (run initState helloWorldTrace).queue.map Msg.text = ["World"]
    ∧ (run initState helloWorldTrace).processing = true
    ∧ (run initState helloWorldTrace).timers = [] := by
  decide

/-- C2 (code evaluated at the failing input): a single "Hello" enqueued into
the fresh state is popped and sent, leaving the queue empty — yet
`_queue_processing` remains `true`: the clearing else-branch never ran, so a
subsequent enqueue cannot kick off a fresh drain cycle. -/
theorem clear_flag_after_pop_bug :
    (run initState [Event.enq "Hello" "manual" (Except.ok ()) 100000]).queue = []
    ∧ (run initState [Event.enq "Hello" "manual" (Except.ok ()) 100000]).processing
        = true := by
  decide

/-! ### Claims about `add_message_to_queue` -/

lemma pmq_queue_len_le (oc : Except String Unit) (now : ℤ) (st : QState) :
    ((processMessageQueue oc now st).1).queue.length ≤ st.queue.length := by
  unfold processMessageQueue
  split
  · simp
  · split
    · simp
    · split
      · rename_i m rest heq
        have hqr := sendMessageDirect_queue oc now m.text
          { st with processing := true, queue := rest }
        cases hres : (sendMessageDirect oc now m.text
            { st with processing := true, queue := rest }).1 <;>
          simp [hres, hqr, heq]
      · simp

lemma enqueuedState_queue_len (now : ℤ) (s ty : String) (st : QState)
    (h : st.queue.length ≤ maxQueueSize) :
    (enqueuedState now s ty st).queue.length ≤ maxQueueSize := by
  have hq : (enqueuedState now s ty st).queue =
      (if maxQueueSize ≤ st.queue.length then st.queue.tail else st.queue)
        ++ [⟨s, ty, now⟩] := rfl
  rw [hq, List.length_append]
  by_cases hfull : maxQueueSize ≤ st.queue.length
  · rw [if_pos hfull, List.length_tail]
    simp only [List.length_cons, List.length_nil, maxQueueSize] at *
    omega
  · rw [if_neg hfull]
    simp only [List.length_cons, List.length_nil, maxQueueSize] at *
    omega

/-- C4: the queue length never exceeds `MAX_QUEUE_SIZE = 10`; a valid enqueue
into a full queue (while a drain is marked in flight, so the buffer update is
observable) evicts the front entry and appends the new sanitized message at
the back, still returning `true`; a valid enqueue is never refused; and 12
rapid valid enqueues on the fresh state leave exactly the last 10 messages in
the queue, in enqueue order. -/
theorem queue_capacity_spec :
    (∀ (oc : Except String Unit) (now : ℤ) (text ty : String) (st : QState),
      st.queue.length ≤ maxQueueSize →
      ((addMessageToQueue oc now text ty st).2).queue.length ≤ maxQueueSize)
    ∧ (∀ (oc : Except String Unit) (now : ℤ) (text ty : String) (st : QState),
        (validateMessage text).1 = true → maxQueueSize ≤ st.queue.length →
        st.processing = true →
        (addMessageToQueue oc now text ty st).1 = true
        ∧ ((addMessageToQueue oc now text ty st).2).queue
            = st.queue.tail ++ [⟨(validateMessage text).2, ty, now⟩])
    ∧ (∀ (oc : Except String Unit) (now : ℤ) (text ty : String) (st : QState),
        (validateMessage text).1 = true →
        (addMessageToQueue oc now text ty st).1 = true)
    ∧ (run initState ((List.range 12).map
          (fun i => Event.enq ("m" ++ toString (i + 1)) "general"
            (Except.ok ()) 100000))).queue.map Msg.text
        = ["m3", "m4", "m5", "m6", "m7", "m8", "m9", "m10", "m11", "m12"] := by
  refine ⟨?_, ?_, ?_, ?_⟩
  · intro oc now text ty st hlen
    unfold addMessageToQueue
    split
    · exact hlen
    · rename_i s heq
      split
      · exact le_trans (pmq_queue_len_le oc now _)
          (enqueuedState_queue_len now s ty st hlen)
      · exact enqueuedState_queue_len now s ty st hlen
  · intro oc now text ty st hval hfull hproc
    unfold addMessageToQueue
    split
    · rename_i x heq
      rw [heq] at hval
      cases hval
    · rename_i s heq
      have hpr : (enqueuedState now s ty st).processing = true := hproc
      rw [if_neg (by simp [hpr])]
      refine ⟨rfl, ?_⟩
      rw [heq]
      unfold enqueuedState
      simp [if_pos hfull]
  · intro oc now text ty st hval
    unfold addMessageToQueue
    split
    · rename_i x heq
      rw [heq] at hval
      cases hval
    · split <;> rfl
  · decide

/-- Witness for `queue_capacity_spec`: a concrete full queue of 10 entries at
t = 100 s, with the drain flag set, evicts `"a1"` and appends the new
sanitized `"fresh"` at the back; and the valid message `"ok"` is accepted. -/
theorem queue_capacity_spec_witness :
    ((addMessageToQueue (Except.ok ()) 100000 "fresh" "general"
        { initState with processing := true,
                         queue := (List.range 10).map
                           (fun i => ⟨"a" ++ toString (i + 1), "general", 0⟩) }).2).queue
      = ((List.range 10).map
            (fun i => (⟨"a" ++ toString (i + 1), "general", 0⟩ : Msg))).tail
          ++ [⟨"fresh", "general", 100000⟩]
    ∧ (addMessageToQueue (Except.ok ()) 50 "ok" "general" initState).1 = true := by
  constructor
  · have h := (queue_capacity_spec.2.1 (Except.ok ()) 100000 "fresh" "general"
      { initState with processing := true,
                       queue := (List.range 10).map
                         (fun i => ⟨"a" ++ toString (i + 1), "general", 0⟩) }
      (by decide) (by decide) (by decide)).2
    rw [h]
    rfl
  · exact queue_capacity_spec.2.2.1 (Except.ok ()) 50 "ok" "general" initState
      (by decide)

/-! ### Claims about the OSC sender -/

/-- C9: `VRChatOSCClient.send_chat_message` wraps the UDP call in
`try`/`except Exception` whose handler only prints, so it returns normally for
every outcome of the underlying call and propagates no exception; hence,
whenever the `osc_client` attribute lookup in `_send_message_direct` succeeds,
`_send_message_direct` returns `true` and its spam-timeout failure branch is
unreachable through this sender. -/
theorem send_chat_message_no_raise :
    (∀ clientResult : Except String Unit,
      sendChatMessage clientResult = Except.ok ())
    ∧ (∀ (lookup clientResult : Except String Unit) (now : ℤ) (text : String)
        (st : QState),
        lookup = Except.ok () →
        sendMessageDirect (oscSendOutcome lookup clientResult) now text st =
          (true, { st with lastSent := now, sent := st.sent ++ [(now, text)] })) := by
  constructor
  · intro r
    cases r <;> rfl
  · intro lookup clientResult now text st hl
    subst hl
    cases clientResult <;> rfl

/-- Witness for `send_chat_message_no_raise`: even when the underlying UDP
call raises, a successful attribute lookup makes `_send_message_direct`
return `true` with no timeout state set. -/
theorem send_chat_message_no_raise_witness :
    sendMessageDirect
        (oscSendOutcome (Except.ok ()) (Except.error "socket error")) 100000
        "hello" initState =
      (true, { initState with lastSent := 100000,
                              sent := [(100000, "hello")] }) := by
  have h := send_chat_message_no_raise.2 (Except.ok ()) (Except.error "socket error")
    100000 "hello" initState rfl
  rw [h]
  rfl

/-- C10: `validate_message` accepts the input `"\x00"` (a null byte is not
whitespace, so the emptiness check passes, and it is stripped only
afterwards), returning `ok = true` with sanitized text `""`; and
`add_message_to_queue` then accepts it and appends a queue entry whose text is
the empty string (the surrounding state has `last_sent = now`, so the drain
merely reschedules and the entry stays visible in the queue). -/
theorem null_byte_empty_message :
    validateMessage "\x00" = (true, "")
    ∧ (addMessageToQueue (Except.ok ()) 100000 "\x00" "general"
        { initState with lastSent := 100000 }).1 = true
    ∧ ((addMessageToQueue (Except.ok ()) 100000 "\x00" "general"
        { initState with lastSent := 100000 }).2).queue
      = [⟨"", "general", 100000⟩] := by
  decide

/-! ### Claims about the timeout flag -/

lemma pmq_timeout_mono (oc : Except String Unit) (now : ℤ) (st : QState)
    (h : st.timeout = true) :
    ((processMessageQueue oc now st).1).timeout = true := by
  unfold processMessageQueue
  split
  · exact h
  · split
    · simpa using h
    · split
      · rename_i m rest heq
        have hmono := sendMessageDirect_timeout_mono oc now m.text
          { st with processing := true, queue := rest } (by simpa using h)
        cases hres : (sendMessageDirect oc now m.text
            { st with processing := true, queue := rest }).1 <;>
          simp [hres, hmono]
      · simpa using h

lemma addMessage_timeout_mono (oc : Except String Unit) (now : ℤ)
    (text ty : String) (st : QState) (h : st.timeout = true) :
    ((addMessageToQueue oc now text ty st).2).timeout = true := by
  unfold addMessageToQueue
  split
  · exact h
  · rename_i s heq
    have he : (enqueuedState now s ty st).timeout = true := h
    split
    · exact pmq_timeout_mono oc now _ he
    · exact he

/-- C6 counterexample: a send rejected with a spam diagnostic at t = 100 s
opens the penalty window [100 s, 130 s]; the state the queue logic reaches via
an enqueue at t = 200 s — 70 s after the window lapsed — still has
`_chatbox_timeout = true`, and `get_queue_status` reports TIMEOUT rather than
READY. -/
theorem timeout_flag_stale_cex :
    (run initState
        [Event.enq "Hi" "manual"
          (Except.error "Timed out for spam, try again later") 100000,
         Event.enq "Later" "manual" (Except.ok ()) 200000]).timeout = true
    ∧ (run initState
        [Event.enq "Hi" "manual"
          (Except.error "Timed out for spam, try again later") 100000,
         Event.enq "Later" "manual" (Except.ok ()) 200000]).timeoutUntil
        = 130000
    ∧ (run initState
        [Event.enq "Hi" "manual"
          (Except.error "Timed out for spam, try again later") 100000,
         Event.enq "Later" "manual" (Except.ok ()) 200000]).timeoutUntil
        ≤ 200000
    ∧ getQueueStatus (run initState
        [Event.enq "Hi" "manual"
          (Except.error "Timed out for spam, try again later") 100000,
         Event.enq "Later" "manual" (Except.ok ()) 200000])
        = "Queue: 1/10 | Status: TIMEOUT" := by
  refine ⟨by decide, by decide, by decide, ?_⟩
  rfl

/-- C6 amended: `_chatbox_timeout` is set by a spam rejection but no event
ever clears it again; once `now ≥ timeout_until` (and the 1.5 s spacing has
also elapsed) the stale flag no longer blocks the drain — a drain on a
non-empty, non-processing queue pops and attempts a send — while
`get_queue_status` keeps reporting TIMEOUT as long as the flag is set. -/
theorem timeout_flag_semantics :
    (∀ (st : QState) (e : Event), st.timeout = true → (step st e).timeout = true)
    ∧ (∀ (oc : Except String Unit) (now : ℤ) (st : QState),
        st.processing = false → st.queue ≠ [] →
        st.timeoutUntil ≤ now → minInterval ≤ now - st.lastSent →
        ∃ b, (processMessageQueue oc now st).2 = DrainResult.popped b)
    ∧ (∀ st : QState, st.timeout = true →
        getQueueStatus st = "Queue: " ++ toString st.queue.length ++ "/"
          ++ toString maxQueueSize ++ " | Status: " ++ "TIMEOUT") := by
  refine ⟨?_, ?_, ?_⟩
  · intro st e h
    cases e with
    | enq text ty oc t => exact addMessage_timeout_mono oc t text ty st h
    | fire oc t => exact pmq_timeout_mono oc t _ h
  · intro oc now st hp hq hu hm
    have h1 : ¬(st.processing = true ∨ st.queue = []) := by
      rintro (h | h)
      · rw [hp] at h
        cases h
      · exact hq h
    have h2 : ¬((st.timeout = true ∧ now < st.timeoutUntil) ∨
        now - st.lastSent < minInterval) := by
      rintro (⟨ht, hlt⟩ | hlt)
      · exact absurd hlt (not_lt.mpr hu)
      · exact absurd hlt (not_lt.mpr hm)
    obtain ⟨m, rest, hqc⟩ := queue_cons_of_guard st h1
    exact ⟨_, (pmq_popped_facts oc now st h1 h2 m rest hqc).2.2⟩
  · intro st h
    simp [getQueueStatus, h]

/-- Witness for `timeout_flag_semantics`: the stale flag survives an enqueue
at t = 200 s; a drain at t = 200 s on a one-element queue whose window ended
at 130 s pops a message; and a state with the flag set reports TIMEOUT. -/
theorem timeout_flag_semantics_witness :
    ((step { initState with timeout := true }
        (Event.enq "x" "general" (Except.ok ()) 200000)).timeout = true)
    ∧ (∃ b, (processMessageQueue (Except.ok ()) 200000
        { initState with queue := [⟨"q", "general", 100000⟩],
                         timeout := true, timeoutUntil := 130000 }).2
        = DrainResult.popped b)
    ∧ getQueueStatus { initState with timeout := true }
        = "Queue: " ++ toString (0 : Nat) ++ "/" ++ toString maxQueueSize
          ++ " | Status: " ++ "TIMEOUT" := by
  refine ⟨?_, ?_, ?_⟩
  · exact timeout_flag_semantics.1 { initState with timeout := true }
      (Event.enq "x" "general" (Except.ok ()) 200000) (by decide)
  · exact timeout_flag_semantics.2.1 (Except.ok ()) 200000
      { initState with queue := [⟨"q", "general", 100000⟩],
                       timeout := true, timeoutUntil := 130000 }
      (by decide) (by decide) (by decide) (by decide)
  · exact timeout_flag_semantics.2.2 { initState with timeout := true } (by decide)

/-! ### The music status animator (main.py lines 234-297)

The scheduling skeleton of `start_music_animation` / `animate_music_status` /
`stop_music_animation`.  tkinter timer handles are modelled as consecutive
`Nat` ids: `pendingTicks` is the set of scheduled-and-not-yet-fired
`animate_music_status` callbacks, `afterId` mirrors `_music_anim_after_id`
(the single id the code remembers for cancellation), and `emitted` counts the
animation frames handed to `send_chatbox_message` (their text composition —
frame slicing, lyrics, window info — does not affect scheduling and is not
modelled).  The `except` path of `animate_music_status` is driven by UI faults
outside this embedding and is not modelled; the `finally` block is. -/

structure AnimState where
  running : Bool        -- `_music_anim_running`
  started : Bool        -- `self.started`
  animIndex : Nat       -- `_music_anim_index`
  afterId : Option Nat  -- `_music_anim_after_id`
  pendingTicks : List Nat
  nextId : Nat
  emitted : Nat
  deriving DecidableEq, Repr

/-- `self.root.after(_, animate_music_status)`: allocate a timer id, remember
it in `_music_anim_after_id`, and add it to the pending set. -/
def scheduleTick (st : AnimState) : AnimState :=
  { st with afterId := some st.nextId,
            pendingTicks := st.pendingTicks ++ [st.nextId],
            nextId := st.nextId + 1 }

/-- One `animate_music_status(send_osc)` call (main.py lines 251-297).  If the
running flag is down, the tick optionally self-heals (restart scheduled when
`self.started`); otherwise it composes and enqueues a frame (when
`send_osc or _music_anim_index > 0`) and advances the index.  Either way the
`finally` block schedules the next tick whenever the running flag is up —
note that a Python `return` inside `try` still executes `finally`, so the
self-heal path schedules twice. -/
def animateMusicStatus (sendOsc : Bool) (st : AnimState) : AnimState :=
  if st.running = false then
    let st1 := if st.started = true then scheduleTick { st with running := true }
               else st
    if st1.running = true then scheduleTick st1 else st1
  else
    let st1 := if sendOsc = true ∨ 0 < st.animIndex
               then { st with emitted := st.emitted + 1 }
               else st
    let st2 := { st1 with animIndex := st1.animIndex + 1 }
    if st2.running = true then scheduleTick st2 else st2

/-- `start_music_animation` (main.py lines 234-239): reset the frame index,
raise the running flag and run one tick with `send_osc=True` synchronously.
It does not touch `_music_anim_after_id` or any pending timer.  (The
title/artist fields it also sets have no effect on scheduling.) -/
def startMusicAnimation (st : AnimState) : AnimState :=
  animateMusicStatus true { st with animIndex := 0, running := true }

/-- `stop_music_animation` (main.py lines 241-249): lower the running flag
and cancel the remembered pending callback, if any. -/
def stopMusicAnimation (st : AnimState) : AnimState :=
  match ({ st with running := false } : AnimState).afterId with
  | some id => { st with running := false,
                         pendingTicks := st.pendingTicks.erase id,
                         afterId := none }
  | none => { st with running := false }

/-- C7 counterexample: with a session active (one pending tick, id 5),
calling `start_music_animation` does not cancel that tick — the tick it
schedules joins it, leaving two pending animation callbacks (two cadences)
feeding the shared queue. -/
theorem animation_restart_no_cancel_cex :
    (startMusicAnimation
        { running := true, started := true, animIndex := 7,
          afterId := some 5, pendingTicks := [5], nextId := 6,
          emitted := 3 }).pendingTicks = [5, 6]
    ∧ (startMusicAnimation
        { running := true, started := true, animIndex := 7,
          afterId := some 5, pendingTicks := [5], nextId := 6,
          emitted := 3 }).pendingTicks.length = 2 := by
  decide

/-- C7 amended: `start_music_animation` cancels nothing — it always leaves
every previously pending animation tick in place and schedules one more —
and cancellation of the remembered pending tick happens only in
`stop_music_animation`, so at most one cadence is guaranteed only when a
start is preceded by a stop. -/
theorem animation_start_stop_semantics :
    (∀ st : AnimState,
      (startMusicAnimation st).pendingTicks = st.pendingTicks ++ [st.nextId])
    ∧ (∀ (st : AnimState) (id : Nat), st.afterId = some id →
        (stopMusicAnimation st).pendingTicks = st.pendingTicks.erase id
        ∧ (stopMusicAnimation st).running = false)
    ∧ (∀ st : AnimState, st.afterId = none →
        (stopMusicAnimation st).pendingTicks = st.pendingTicks
        ∧ (stopMusicAnimation st).running = false) := by
  refine ⟨?_, ?_, ?_⟩
  · intro st
    unfold startMusicAnimation animateMusicStatus
    simp
    rfl
  · intro st id h
    unfold stopMusicAnimation
    rw [show ({ st with running := false } : AnimState).afterId = some id from h]
    exact ⟨rfl, rfl⟩
  · intro st h
    unfold stopMusicAnimation
    rw [show ({ st with running := false } : AnimState).afterId = none from h]
    exact ⟨rfl, rfl⟩

/-- Witness for `animation_start_stop_semantics`: concrete stop calls with and
without a remembered timer id. -/
theorem animation_start_stop_semantics_witness :
    ((stopMusicAnimation
        { running := true, started := true, animIndex := 2,
          afterId := some 4, pendingTicks := [4], nextId := 5,
          emitted := 1 }).pendingTicks = List.erase [4] 4
      ∧ (stopMusicAnimation
        { running := true, started := true, animIndex := 2,
          afterId := some 4, pendingTicks := [4], nextId := 5,
          emitted := 1 }).running = false)
    ∧ ((stopMusicAnimation
        { running := false, started := false, animIndex := 0,
          afterId := none, pendingTicks := [], nextId := 0,
          emitted := 0 }).pendingTicks = []
      ∧ (stopMusicAnimation
        { running := false, started := false, animIndex := 0,
          afterId := none, pendingTicks := [], nextId := 0,
          emitted := 0 }).running = false) :=
  ⟨animation_start_stop_semantics.2.1
      { running := true, started := true, animIndex := 2,
        afterId := some 4, pendingTicks := [4], nextId := 5, emitted := 1 }
      4 (by decide),
   animation_start_stop_semantics.2.2
      { running := false, started := false, animIndex := 0,
        afterId := none, pendingTicks := [], nextId := 0, emitted := 0 }
      (by decide)⟩

end VTAuder
